import Mathlib

/-!
# Legal Evidence Hub — verification of the evidence-pipeline specification

Shallow embedding of the evidence-processing pipeline of the Legal Evidence
Hub web application: the evidence data model and status state machine, the
backend operations (presigned-upload issuance, evidence listing, result
commit, draft generation, JWT authentication) and the frontend helpers
(`buildCasePath`, `DraftGenerationModal` selection logic).

Frontend definitions are translated from the TypeScript sources
(`src/frontend/src/lib/portalPaths.ts`, `types/evidence.ts`,
`DraftGenerationModal.tsx`, `useEvidenceTable.ts`).  The FastAPI backend and
the Lambda AI worker are not part of the repository snapshot (only their
design documents and reports are), so those operations are modelled from the
specification, as marked in each doc comment.
-/

namespace LEH

/-- Media type of an evidence item, from
`export type EvidenceType = 'text' | 'image' | 'audio' | 'video' | 'pdf'`
in `types/evidence.ts`. -/
inductive EvidenceType where
| text
| image
| audio
| video
| pdf
deriving DecidableEq, Repr

/-- Status of an evidence record, from
`export type EvidenceStatus = 'uploading' | 'queued' | 'processing' |
'review_needed' | 'completed' | 'failed'` in `types/evidence.ts`. -/
inductive EvidenceStatus where
| uploading
| queued
| processing
| review_needed
| completed
| failed
deriving DecidableEq, Repr

/-- The list of all six evidence statuses, in source order. -/
def EvidenceStatus.all : List EvidenceStatus :=
  [.uploading, .queued, .processing, .review_needed, .completed, .failed]

/-- Badge label chosen by `getStatusBadge` in `EvidenceTable.tsx`: the four
explicitly handled statuses get a Korean label, the default branch renders
the raw status text. -/
def getStatusBadge (status : EvidenceStatus) : String :=
  match status with
  | .completed => "완료"
  | .processing => "분석 중"
  | .queued => "대기 중"
  | .failed => "실패"
  | .uploading => "uploading"
  | .review_needed => "review_needed"

/-- Modelled from the spec: the evidence status state machine
`uploading → queued → processing → \x7bcompleted | failed | review_needed\x7d`
with the single backward edge `failed → queued` (operator retry).  No status
transition code ships in the repository snapshot (the frontend only renders
statuses), so the transition relation follows the specification §3. -/
inductive StatusStep : EvidenceStatus → EvidenceStatus → Prop where
| upload_done : StatusStep .uploading .queued
| dispatch : StatusStep .queued .processing
| analysis_ok : StatusStep .processing .completed
| analysis_err : StatusStep .processing .failed
| analysis_review : StatusStep .processing .review_needed
| retry : StatusStep .failed .queued

/-- Rank of a status along the forward order of the state machine:
`uploading < queued < processing < \x7bcompleted, failed, review_needed\x7d`. -/
def statusRank (s : EvidenceStatus) : Nat :=
  match s with
  | .uploading => 0
  | .queued => 1
  | .processing => 2
  | .review_needed => 3
  | .completed => 3
  | .failed => 3

/-- C1: the status field takes only the six declared values, and every
transition of the status state machine strictly increases the rank except
for the sole backward transition `failed → queued` (operator retry). -/
theorem status_machine_monotone :
    (∀ s : EvidenceStatus, s ∈ EvidenceStatus.all) ∧
    (∀ s t : EvidenceStatus, StatusStep s t →
      (s = .failed ∧ t = .queued) ∨ statusRank s < statusRank t) := by
  constructor
  · intro s
    cases s <;> simp [EvidenceStatus.all]
  · intro s t h
    cases h <;> simp [statusRank]

/-- Witness for C1 at the concrete transition `queued → processing`. -/
theorem status_machine_monotone_witness :
    StatusStep .queued .processing ∧
      ((EvidenceStatus.queued = .failed ∧ EvidenceStatus.processing = .queued) ∨
        statusRank .queued < statusRank .processing) :=
  ⟨StatusStep.dispatch,
    status_machine_monotone.2 .queued .processing StatusStep.dispatch⟩

/-- An evidence item as the frontend sees it, from `interface Evidence` in
`types/evidence.ts`.  `uploadDate` (an ISO date string in the source) is
embedded as a `Nat` timestamp so the ascending order of upload time is the
order on `Nat`; `size` is in bytes. -/
structure Evidence where
  id : String
  caseId : String
  filename : String
  mediaType : EvidenceType
  status : EvidenceStatus
  uploadDate : Nat
  summary : Option String := none
  size : Nat := 0
  downloadUrl : Option String := none
  content : Option String := none
deriving DecidableEq, Repr

/-! ## DraftGenerationModal selection logic

Translated from `DraftGenerationModal.tsx`: the modal keeps a
`selectedIds : string[]` state (initially `[]`), toggled per row by
`toggleSelection`, set wholesale by `handleSelectAll`, and the confirm
button invoking `onGenerate(selectedIds)` is rendered with
`disabled=\x7bselectedIds.length === 0\x7d`. -/

/-- `toggleSelection(id)`: `prev.includes(id) ? prev.filter((i) => i !== id)
: [...prev, id]`. -/
def toggleSelection (id : String) (prev : List String) : List String :=
  if prev.contains id then prev.filter (fun i => i ≠ id) else prev ++ [id]

/-- `handleSelectAll`: clears the selection when everything is selected
(`selectedIds.length === evidenceList.length`), otherwise selects
`evidenceList.map((e) => e.id)`. -/
def handleSelectAll (evidenceList : List Evidence) (selectedIds : List String) :
    List String :=
  if selectedIds.length = evidenceList.length then []
  else evidenceList.map (fun e => e.id)

/-- The confirm button's `disabled` prop: `selectedIds.length === 0`. -/
def generateDisabled (selectedIds : List String) : Bool :=
  selectedIds.length == 0

/-- Clicking the confirm button: a disabled button fires no `onClick`, so
`onGenerate` receives the selection exactly when the button is enabled. -/
def generateInvocation (selectedIds : List String) : Option (List String) :=
  if generateDisabled selectedIds then none else some selectedIds

/-- Selection states of the modal reachable from the initial
`useState<string[]>([])` by clicking evidence rows (which only exist for
ids of `evidenceList`) and the select-all button. -/
inductive ReachableSelection (evidenceList : List Evidence) : List String → Prop
| init : ReachableSelection evidenceList []
| toggle {s : List String} (e : Evidence) (he : e ∈ evidenceList)
    (hs : ReachableSelection evidenceList s) :
    ReachableSelection evidenceList (toggleSelection e.id s)
| selectAll {s : List String} (hs : ReachableSelection evidenceList s) :
    ReachableSelection evidenceList (handleSelectAll evidenceList s)

/-- C9: in every reachable modal state the confirm button is disabled when
the selection is empty, and whenever `onGenerate` is invoked its argument is
a non-empty selection. -/
theorem generate_button_guard (evidenceList : List Evidence)
    (s out : List String) (hr : ReachableSelection evidenceList s) :
    (s = [] → generateDisabled s = true) ∧
      (generateInvocation s = some out → out ≠ []) := by
  constructor
  · intro hs
    subst hs
    rfl
  · intro hinv
    unfold generateInvocation at hinv
    by_cases hd : generateDisabled s = true
    · simp [hd] at hinv
    · simp [hd] at hinv
      subst hinv
      intro hnil
      subst hnil
      exact hd rfl

/-- Witness for C9: the state reached by toggling the single evidence row
of a one-element list, where the button is enabled and `onGenerate`
receives the non-empty selection `["ev_1"]`. -/
theorem generate_button_guard_witness :
    ReachableSelection
        [{ id := "ev_1", caseId := "c1", filename := "a.txt",
           mediaType := .text, status := .completed, uploadDate := 0 }]
        ["ev_1"] ∧
      ((["ev_1"] = ([] : List String) → generateDisabled ["ev_1"] = true) ∧
        (generateInvocation ["ev_1"] = some ["ev_1"] → ["ev_1"] ≠ ([] : List String))) := by
  have hr : ReachableSelection
      [{ id := "ev_1", caseId := "c1", filename := "a.txt",
         mediaType := .text, status := .completed, uploadDate := 0 }]
      ["ev_1"] := by
    have h : ReachableSelection
        [{ id := "ev_1", caseId := "c1", filename := "a.txt",
           mediaType := .text, status := .completed, uploadDate := 0 }]
        (toggleSelection "ev_1" []) :=
      ReachableSelection.toggle
        { id := "ev_1", caseId := "c1", filename := "a.txt",
          mediaType := .text, status := .completed, uploadDate := 0 }
        (by simp) ReachableSelection.init
    simpa [toggleSelection] using h
  exact ⟨hr, generate_button_guard _ ["ev_1"] ["ev_1"] hr⟩

/-- C10: on duplicate-free selections, toggling the same id twice restores
the original selection set, toggling preserves duplicate-freeness, and
`handleSelectAll` preserves duplicate-freeness, producing either the empty
selection or exactly the full list of evidence ids. -/
theorem toggle_involutive_selectAll (s : List String) (id : String)
    (evidenceList : List Evidence) (hs : s.Nodup)
    (hids : (evidenceList.map Evidence.id).Nodup) :
    (toggleSelection id (toggleSelection id s)).toFinset = s.toFinset ∧
      (toggleSelection id s).Nodup ∧
      (handleSelectAll evidenceList s).Nodup ∧
      (handleSelectAll evidenceList s = [] ∨
        handleSelectAll evidenceList s = evidenceList.map Evidence.id) := by
  refine ⟨?_, ?_, ?_, ?_⟩
  · by_cases h : id ∈ s
    · have h1 : toggleSelection id s = s.filter (fun i => i ≠ id) := by
        simp [toggleSelection, h]
      have h2 : id ∉ s.filter (fun i => i ≠ id) := by
        simp [List.mem_filter]
      have h3 : toggleSelection id (s.filter (fun i => i ≠ id)) =
          s.filter (fun i => i ≠ id) ++ [id] := by
        simp [toggleSelection, h2]
      rw [h1, h3]
      ext a
      simp only [List.toFinset_append, Finset.mem_union, List.mem_toFinset,
        List.mem_filter, List.mem_singleton, decide_eq_true_eq]
      constructor
      · rintro (⟨ha, _⟩ | rfl)
        · exact ha
        · exact h
      · intro ha
        by_cases hai : a = id
        · exact Or.inr hai
        · exact Or.inl ⟨ha, hai⟩
    · have h1 : toggleSelection id s = s ++ [id] := by
        simp [toggleSelection, h]
      have h2 : id ∈ s ++ [id] := by simp
      have hself : s.filter (fun i => i ≠ id) = s :=
        List.filter_eq_self.mpr (fun a ha => by
          simp only [decide_eq_true_eq]
          rintro rfl
          exact h ha)
      have h3 : toggleSelection id (s ++ [id]) = s := by
        simp only [toggleSelection, h2, List.contains_eq_any_beq]
        rw [if_pos]
        · rw [List.filter_append, hself]
          simp
        · simp [List.any_beq]
      rw [h1, h3]
  · by_cases h : id ∈ s
    · have h1 : toggleSelection id s = s.filter (fun i => i ≠ id) := by
        simp [toggleSelection, h]
      rw [h1]
      exact hs.filter _
    · have h1 : toggleSelection id s = s ++ [id] := by
        simp [toggleSelection, h]
      rw [h1]
      simp only [List.nodup_append, List.nodup_cons, List.not_mem_nil,
        not_false_iff, List.nodup_nil, and_true, true_and]
      exact ⟨hs, by simpa [List.disjoint_singleton] using h⟩
  · by_cases h : s.length = evidenceList.length
    · simp [handleSelectAll, h]
    · simpa [handleSelectAll, h] using hids
  · by_cases h : s.length = evidenceList.length
    · exact Or.inl (by simp [handleSelectAll, h])
    · exact Or.inr (by simp [handleSelectAll, h])

/-- Witness for C10 on the selection `["a"]` over a two-element evidence
list with ids `"a"` and `"b"`. -/
theorem toggle_involutive_selectAll_witness :
    (["a"] : List String).Nodup ∧
      (([{ id := "a", caseId := "c1", filename := "a.txt", mediaType := .text,
            status := .completed, uploadDate := 0 },
          { id := "b", caseId := "c1", filename := "b.txt", mediaType := .pdf,
            status := .queued, uploadDate := 1 }] :
          List Evidence).map Evidence.id).Nodup ∧
      ((toggleSelection "a" (toggleSelection "a" ["a"])).toFinset =
          (["a"] : List String).toFinset ∧
        (toggleSelection "a" ["a"]).Nodup ∧
        (handleSelectAll
            [{ id := "a", caseId := "c1", filename := "a.txt", mediaType := .text,
               status := .completed, uploadDate := 0 },
             { id := "b", caseId := "c1", filename := "b.txt", mediaType := .pdf,
               status := .queued, uploadDate := 1 }] ["a"]).Nodup ∧
        (handleSelectAll
            [{ id := "a", caseId := "c1", filename := "a.txt", mediaType := .text,
               status := .completed, uploadDate := 0 },
             { id := "b", caseId := "c1", filename := "b.txt", mediaType := .pdf,
               status := .queued, uploadDate := 1 }] ["a"] = [] ∨
          handleSelectAll
            [{ id := "a", caseId := "c1", filename := "a.txt", mediaType := .text,
               status := .completed, uploadDate := 0 },
             { id := "b", caseId := "c1", filename := "b.txt", mediaType := .pdf,
               status := .queued, uploadDate := 1 }] ["a"] =
            ([{ id := "a", caseId := "c1", filename := "a.txt", mediaType := .text,
                status := .completed, uploadDate := 0 },
              { id := "b", caseId := "c1", filename := "b.txt", mediaType := .pdf,
                status := .queued, uploadDate := 1 }] :
              List Evidence).map Evidence.id)) :=
  ⟨by decide, by decide,
    toggle_involutive_selectAll ["a"] "a" _ (by decide) (by decide)⟩

/-! ## Backend model

The FastAPI backend and the Lambda worker are not part of the repository
snapshot; only `docs/specs/BACKEND_DESIGN.md` and the worker report describe
them.  The operations below are therefore modelled from the specification. -/

/-- Error taxonomy of the backend (spec §7): validation → 400, missing or
expired token → 401, not a case member → 403, unknown entity → 404, closed
case → 409 conflict, LLM failure → retryable error. -/
inductive ApiError where
| validation
| auth
| permission
| notFound
| conflict
| retryable
deriving DecidableEq, Repr

/-- Role of a case member (spec §3: `owner` | `member` | `viewer`). -/
inductive CaseRole where
| owner
| member
| viewer
deriving DecidableEq, Repr

/-- Modelled from the spec: a Case row of the Case/Access Control Layer —
identifier, status (`active`|`closed`), and the member list with roles. -/
structure CaseRec where
  id : String
  closed : Bool := false
  members : List (String × CaseRole) := []
deriving DecidableEq, Repr

/-- Modelled from the spec: an Evidence Record of the Evidence Record Store,
composite key (case_id, evidence_id), with the persisted external shape
`\x7bcase_id, evidence_id, type, timestamp, speaker, labels, ai_summary,
insights, content, s3_key, status, vector_id\x7d` plus the stored failure
reason and the soft-deletion flag. -/
structure EvidenceRecord where
  caseId : String
  evidenceId : String
  mediaType : Option EvidenceType := none
  timestamp : Nat := 0
  speaker : Option String := none
  labels : List String := []
  aiSummary : Option String := none
  insights : List String := []
  content : Option String := none
  s3Key : String := ""
  status : EvidenceStatus
  vectorId : Option String := none
  failureReason : Option String := none
  deleted : Bool := false
deriving DecidableEq, Repr

/-- Modelled from the spec: backend-visible state — the relational case
table, the Evidence Record Store, and the evidence-id generator. -/
structure BackendState where
  cases : List CaseRec
  records : List EvidenceRecord := []
  nextId : Nat := 0
deriving DecidableEq, Repr

/-- Whether `userId` is a member (any role) of case `caseId`. -/
def isMember (st : BackendState) (userId caseId : String) : Bool :=
  st.cases.any (fun k => k.id = caseId ∧ k.members.any (fun m => m.1 = userId))

/-- Whether `userId` may upload to `caseId` (spec §4.1: role ≥ member,
i.e. `owner` or `member`, not `viewer`). -/
def hasUploadRole (st : BackendState) (userId caseId : String) : Bool :=
  st.cases.any (fun k => k.id = caseId ∧
    k.members.any (fun m => m.1 = userId ∧ m.2 ≠ CaseRole.viewer))

/-- Whether case `caseId` is closed. -/
def caseClosed (st : BackendState) (caseId : String) : Bool :=
  st.cases.any (fun k => k.id = caseId ∧ k.closed)

/-- Modelled from the spec: filename sanitization — the spec fixes no
algorithm, so path separators are stripped; a valid filename is one the
sanitizer leaves unchanged. -/
def sanitize (filename : String) : String :=
  String.mk (filename.data.filter (fun c => c ≠ Char.ofNat 47))

/-- The generated evidence id, prefixed with the fixed tag `ev_`. -/
def evidenceIdOf (n : Nat) : String :=
  "ev_" ++ toString n

/-- The canonical blob-storage key
`cases/\x7bcase_id\x7d/raw/\x7bevidence_id\x7d_\x7bfilename\x7d`. -/
def canonicalKey (caseId evidenceId filename : String) : String :=
  "cases/" ++ caseId ++ "/raw/" ++ evidenceId ++ "_" ++ filename

/-- The presigned-upload response `\x7bupload_url, file_key\x7d`; the
credential is valid for a fixed 5-minute window. -/
structure UploadGrant where
  uploadUrl : String
  fileKey : String
  expiresIn : Nat := 300
deriving DecidableEq, Repr

/-- Modelled from the spec: the Presigned-URL Issuer,
`requestUpload(case_id, filename) -> \x7bupload_url, file_key\x7d`.  The
caller must hold role ≥ member; a closed case is a conflict; otherwise a
fresh evidence id is minted, the canonical key is built from the sanitized
filename, and exactly one Evidence Record is created in `queued` status
keyed by the generated evidence id. -/
def requestUpload (st : BackendState) (userId caseId filename : String)
    (now : Nat) : Except ApiError (UploadGrant × BackendState) :=
  if hasUploadRole st userId caseId then
    if caseClosed st caseId then .error .conflict
    else
      let evidenceId := evidenceIdOf st.nextId
      let fileKey := canonicalKey caseId evidenceId (sanitize filename)
      let record : EvidenceRecord :=
        { caseId := caseId, evidenceId := evidenceId, timestamp := now,
          s3Key := fileKey, status := .queued }
      .ok ({ uploadUrl := "https://s3.example/" ++ fileKey, fileKey := fileKey },
        { st with records := record :: st.records, nextId := st.nextId + 1 })
  else .error .permission

/-- C2: for a valid (case_id, filename) whose caller is a case member with
upload rights on an open case, `requestUpload` succeeds, returns the
canonical file key `cases/\x7bcase_id\x7d/raw/\x7bevidence_id\x7d_\x7bfilename\x7d`,
and its only record side effect is to prepend exactly one Evidence Record
in `queued` status keyed by the generated evidence id; the case table is
untouched. -/
theorem requestUpload_creates_queued (st : BackendState)
    (userId caseId filename : String) (now : Nat)
    (hrole : hasUploadRole st userId caseId = true)
    (hopen : caseClosed st caseId = false)
    (hname : sanitize filename = filename) :
    ∃ grant st2, requestUpload st userId caseId filename now = .ok (grant, st2) ∧
      grant.fileKey =
        "cases/" ++ caseId ++ "/raw/" ++ evidenceIdOf st.nextId ++ "_" ++ filename ∧
      st2.records =
        { caseId := caseId, evidenceId := evidenceIdOf st.nextId,
          timestamp := now, s3Key := grant.fileKey,
          status := .queued } :: st.records ∧
      st2.cases = st.cases := by
  have hkey : canonicalKey caseId (evidenceIdOf st.nextId) (sanitize filename) =
      "cases/" ++ caseId ++ "/raw/" ++ evidenceIdOf st.nextId ++ "_" ++ filename := by
    simp [canonicalKey, hname]
  refine ⟨{ uploadUrl := "https://s3.example/" ++
              canonicalKey caseId (evidenceIdOf st.nextId) (sanitize filename),
            fileKey := canonicalKey caseId (evidenceIdOf st.nextId) (sanitize filename) },
          { st with
            records :=
              { caseId := caseId, evidenceId := evidenceIdOf st.nextId,
                timestamp := now,
                s3Key := canonicalKey caseId (evidenceIdOf st.nextId) (sanitize filename),
                status := .queued } :: st.records,
            nextId := st.nextId + 1 },
          ?_, hkey, rfl, rfl⟩
  simp [requestUpload, hrole, hopen]

/-- Witness for C2 on a one-case state whose single member owns the case. -/
theorem requestUpload_creates_queued_witness :
    hasUploadRole
        { cases := [{ id := "c1", members := [("u1", CaseRole.owner)] }] }
        "u1" "c1" = true ∧
      caseClosed
        { cases := [{ id := "c1", members := [("u1", CaseRole.owner)] }] }
        "c1" = false ∧
      sanitize "chat.txt" = "chat.txt" ∧
      ∃ grant st2,
        requestUpload
            { cases := [{ id := "c1", members := [("u1", CaseRole.owner)] }] }
            "u1" "c1" "chat.txt" 7 = .ok (grant, st2) ∧
          grant.fileKey = "cases/" ++ "c1" ++ "/raw/" ++ evidenceIdOf 0 ++ "_" ++ "chat.txt" ∧
          st2.records =
            { caseId := "c1", evidenceId := evidenceIdOf 0, timestamp := 7,
              s3Key := grant.fileKey, status := .queued } :: [] ∧
          st2.cases = [{ id := "c1", members := [("u1", CaseRole.owner)] }] :=
  ⟨by decide, by decide, by decide,
    requestUpload_creates_queued
      { cases := [{ id := "c1", members := [("u1", CaseRole.owner)] }] }
      "u1" "c1" "chat.txt" 7 (by decide) (by decide) (by decide)⟩

/-- Optional filters of the Evidence Query API (spec §4.6 `filters?`). -/
structure EvidenceFilters where
  mediaType : Option EvidenceType := none
  status : Option EvidenceStatus := none
deriving DecidableEq, Repr

/-- Whether a record passes the given filter set. -/
def matchesFilters (filters : EvidenceFilters) (r : EvidenceRecord) : Bool :=
  (match filters.mediaType with
   | none => true
   | some t => r.mediaType = some t) &&
  (match filters.status with
   | none => true
   | some s => r.status = s)

/-- The records of `caseId` visible to the frontend: same case, not
soft-deleted. -/
def caseRecords (st : BackendState) (caseId : String) : List EvidenceRecord :=
  st.records.filter (fun r => r.caseId = caseId ∧ r.deleted = false)

/-- Modelled from the spec: the Evidence Query API,
`listEvidence(case_id, filters?) -> Evidence[]` — membership check first,
then the case's visible records, filtered and sorted ascending by upload
timestamp. -/
def listEvidence (st : BackendState) (userId caseId : String)
    (filters : EvidenceFilters) : Except ApiError (List EvidenceRecord) :=
  if isMember st userId caseId then
    .ok (((caseRecords st caseId).filter (matchesFilters filters)).mergeSort
      (fun a b => a.timestamp ≤ b.timestamp))
  else .error .permission

/-- C3: for every case and filter set, a member's `listEvidence` call
returns exactly the case's (filtered, visible) evidence records, sorted
ascending by upload timestamp. -/
theorem listEvidence_sorted (st : BackendState) (userId caseId : String)
    (filters : EvidenceFilters) (hm : isMember st userId caseId = true) :
    ∃ l, listEvidence st userId caseId filters = .ok l ∧
      l.Pairwise (fun a b => a.timestamp ≤ b.timestamp) ∧
      l.Perm ((caseRecords st caseId).filter (matchesFilters filters)) := by
  refine ⟨((caseRecords st caseId).filter (matchesFilters filters)).mergeSort
      (fun a b => a.timestamp ≤ b.timestamp), ?_, ?_, ?_⟩
  · simp [listEvidence, hm]
  · have h := @List.sorted_mergeSort EvidenceRecord
      (fun a b : EvidenceRecord => decide (a.timestamp ≤ b.timestamp))
      (fun a b c hab hbc => by
        simp only [decide_eq_true_eq] at hab hbc ⊢
        omega)
      (fun a b => by
        simp only [Bool.or_eq_true, decide_eq_true_eq]
        omega)
      ((caseRecords st caseId).filter (matchesFilters filters))
    exact h.imp (fun hab => by simpa using hab)
  · exact List.mergeSort_perm _ _

/-- Witness for C3 on a two-record state whose records arrive out of
timestamp order. -/
theorem listEvidence_sorted_witness :
    isMember
        { cases := [{ id := "c1", members := [("u1", CaseRole.member)] }],
          records :=
            [{ caseId := "c1", evidenceId := "ev_1", timestamp := 5,
               status := .completed },
             { caseId := "c1", evidenceId := "ev_0", timestamp := 2,
               status := .completed }] }
        "u1" "c1" = true ∧
      ∃ l,
        listEvidence
            { cases := [{ id := "c1", members := [("u1", CaseRole.member)] }],
              records :=
                [{ caseId := "c1", evidenceId := "ev_1", timestamp := 5,
                   status := .completed },
                 { caseId := "c1", evidenceId := "ev_0", timestamp := 2,
                   status := .completed }] }
            "u1" "c1" {} = .ok l ∧
          l.Pairwise (fun a b => a.timestamp ≤ b.timestamp) ∧
          l.Perm ((caseRecords
              { cases := [{ id := "c1", members := [("u1", CaseRole.member)] }],
                records :=
                  [{ caseId := "c1", evidenceId := "ev_1", timestamp := 5,
                     status := .completed },
                   { caseId := "c1", evidenceId := "ev_0", timestamp := 2,
                     status := .completed }] }
              "c1").filter (matchesFilters {})) :=
  ⟨by decide,
    listEvidence_sorted
      { cases := [{ id := "c1", members := [("u1", CaseRole.member)] }],
        records :=
          [{ caseId := "c1", evidenceId := "ev_1", timestamp := 5,
             status := .completed },
           { caseId := "c1", evidenceId := "ev_0", timestamp := 2,
             status := .completed }] }
      "u1" "c1" {} (by decide)⟩

/-- A citation pair `\x7bevidence_id, quote\x7d` of a draft preview. -/
structure DraftCitationPair where
  evidenceId : String
  quote : String
deriving DecidableEq, Repr

/-- The ephemeral draft preview `\x7bdraft_text, citations\x7d` (spec §3:
never persisted, never auto-filed). -/
structure DraftPreview where
  draftText : String
  citations : List DraftCitationPair
deriving DecidableEq, Repr

/-- Modelled from the spec: the semantic-search step of the Draft Composer —
top-matching excerpts with their evidence id, drawn from the case's records
that have extracted content. -/
def semanticMatches (evidence : List EvidenceRecord) :
    List DraftCitationPair :=
  evidence.filterMap (fun r =>
    match r.content with
    | some text => some { evidenceId := r.evidenceId, quote := text }
    | none => none)

/-- Modelled from the spec: the LLM call is an opaque external collaborator;
its draft text is modelled as a deterministic function of the requested
sections and the matched excerpts. -/
def composeDraftText (sections : List String)
    (pairs : List DraftCitationPair) : String :=
  String.intercalate "\n" sections ++ "\n" ++
    String.intercalate "\n" (pairs.map (fun m => m.quote))

/-- Modelled from the spec: the explicit empty-evidence draft of Scenario C. -/
def emptyEvidenceDraft (sections : List String) : String :=
  "제출된 증거가 없습니다: " ++ String.intercalate ", " sections

/-- Modelled from the spec: the Draft Composer,
`generateDraft(case_id, sections[]) -> \x7bdraft_text, citations[]\x7d` —
membership check first; an empty evidence set yields a citation-free draft
(not an error); an LLM failure (`llmUp = false`) surfaces as a retryable
error. -/
def generateDraft (st : BackendState) (userId caseId : String)
    (sections : List String) (llmUp : Bool) : Except ApiError DraftPreview :=
  if isMember st userId caseId then
    let evidence := caseRecords st caseId
    if evidence.isEmpty then
      .ok { draftText := emptyEvidenceDraft sections, citations := [] }
    else if llmUp then
      let pairs := semanticMatches evidence
      .ok { draftText := composeDraftText sections pairs,
            citations := pairs }
    else .error .retryable
  else .error .permission

/-- C5: for a member of a case with no evidence records, `generateDraft`
succeeds and returns a draft whose citations list is empty, whether or not
the LLM is reachable. -/
theorem generateDraft_empty_evidence (st : BackendState)
    (userId caseId : String) (sections : List String) (llmUp : Bool)
    (hm : isMember st userId caseId = true)
    (he : caseRecords st caseId = []) :
    ∃ d, generateDraft st userId caseId sections llmUp = .ok d ∧
      d.citations = [] := by
  refine ⟨{ draftText := emptyEvidenceDraft sections, citations := [] }, ?_, rfl⟩
  simp [generateDraft, hm, he]

/-- Witness for C5 on a one-case state with an empty record store. -/
theorem generateDraft_empty_evidence_witness :
    isMember { cases := [{ id := "c1", members := [("u1", CaseRole.owner)] }] }
        "u1" "c1" = true ∧
      caseRecords { cases := [{ id := "c1", members := [("u1", CaseRole.owner)] }] }
        "c1" = [] ∧
      ∃ d,
        generateDraft
            { cases := [{ id := "c1", members := [("u1", CaseRole.owner)] }] }
            "u1" "c1" ["청구원인"] true = .ok d ∧
          d.citations = [] :=
  ⟨by decide, by decide,
    generateDraft_empty_evidence
      { cases := [{ id := "c1", members := [("u1", CaseRole.owner)] }] }
      "u1" "c1" ["청구원인"] true (by decide) (by decide)⟩

/-- C6: a user who is not a member of a case gets the authorization
(403-class) error from both `listEvidence` and `generateDraft`; the
hypothesis places no constraint on whether the case exists in `st.cases`,
so the outcome is the same for existing and non-existing cases. -/
theorem non_member_rejected (st : BackendState) (userId caseId : String)
    (filters : EvidenceFilters) (sections : List String) (llmUp : Bool)
    (hnm : isMember st userId caseId = false) :
    listEvidence st userId caseId filters = .error .permission ∧
      generateDraft st userId caseId sections llmUp = .error .permission := by
  constructor
  · simp [listEvidence, hnm]
  · simp [generateDraft, hnm]

/-- Witness for C6: a stranger is rejected on a state where the case does
not exist at all. -/
theorem non_member_rejected_witness :
    isMember { cases := [] } "intruder" "ghost-case" = false ∧
      (listEvidence { cases := [] } "intruder" "ghost-case" {} =
          .error .permission ∧
        generateDraft { cases := [] } "intruder" "ghost-case" ["청구취지"] true =
          .error .permission) :=
  ⟨by decide,
    non_member_rejected { cases := [] } "intruder" "ghost-case" {} ["청구취지"]
      true (by decide)⟩

/-! ## Result Writer (worker side) -/

/-- Modelled from the spec: a Vector Document of the per-case search index —
extracted text, the same label set, timestamp/speaker, and an embedding. -/
structure VectorDoc where
  caseId : String
  evidenceId : String
  content : String
  labels : List String
  timestamp : Nat
  speaker : Option String := none
  embedding : List Int := []
deriving DecidableEq, Repr

/-- A success payload of the Result Writer: the analysis output (summary,
labels, extracted content, vector id) together with the data the worker read
off the upload event (media type, object key, timestamp, speaker,
embedding). -/
structure SuccessPayload where
  mediaType : EvidenceType
  summary : String
  labels : List String
  content : String
  insights : List String := []
  vectorId : String
  s3Key : String
  timestamp : Nat
  speaker : Option String := none
  embedding : List Int := []
deriving DecidableEq, Repr

/-- The result delivered to the Result Writer: a success payload or a
failure reason. -/
inductive AnalysisResult where
| success (payload : SuccessPayload)
| failure (reason : String)
deriving DecidableEq, Repr

/-- Modelled from the spec: the two stores the Result Writer mutates — the
Evidence Record Store and the per-case vector index. -/
structure PipelineStore where
  records : List EvidenceRecord := []
  vectors : List VectorDoc := []
deriving DecidableEq, Repr

/-- Whether a record carries the composite key (case_id, evidence_id). -/
def keyMatches (c e : String) (r : EvidenceRecord) : Bool :=
  r.caseId = c ∧ r.evidenceId = e

/-- In-place update of a record with a success payload: status `completed`,
analysis fields set from the payload, previous failure reason superseded. -/
def applySuccess (p : SuccessPayload) (r : EvidenceRecord) : EvidenceRecord :=
  { r with
    mediaType := some p.mediaType, status := .completed,
    aiSummary := some p.summary, labels := p.labels,
    insights := p.insights, content := some p.content,
    vectorId := some p.vectorId, failureReason := none }

/-- The record created by the fallback path when no placeholder exists
(legacy key shape). -/
def freshFromPayload (c e : String) (p : SuccessPayload) : EvidenceRecord :=
  applySuccess p
    { caseId := c, evidenceId := e, timestamp := p.timestamp,
      s3Key := p.s3Key, speaker := p.speaker, status := .queued }

/-- In-place update of a record with a failure: status `failed` and the
stored reason. -/
def applyFailure (reason : String) (r : EvidenceRecord) : EvidenceRecord :=
  { r with status := .failed, failureReason := some reason }

/-- The Vector Document upserted for (case_id, evidence_id) from a success
payload. -/
def vectorDocOf (c e : String) (p : SuccessPayload) : VectorDoc :=
  { caseId := c, evidenceId := e, content := p.content, labels := p.labels,
    timestamp := p.timestamp, speaker := p.speaker, embedding := p.embedding }

/-- Modelled from the spec: the Result Writer's
`commit(case_id, evidence_id, result)` — a conditional update: if the
Evidence Record does not exist it is created (legacy fallback), otherwise
status and analysis fields are updated in place; on success the Vector
Document is upserted into the case's index (last write wins). -/
def commit (st : PipelineStore) (c e : String) (result : AnalysisResult) :
    PipelineStore :=
  match result with
  | .success p =>
      { records :=
          if st.records.any (keyMatches c e) then
            st.records.map (fun r =>
              if keyMatches c e r then applySuccess p r else r)
          else freshFromPayload c e p :: st.records,
        vectors :=
          vectorDocOf c e p ::
            st.vectors.filter (fun v => ¬(v.caseId = c ∧ v.evidenceId = e)) }
  | .failure reason =>
      { records :=
          if st.records.any (keyMatches c e) then
            st.records.map (fun r =>
              if keyMatches c e r then applyFailure reason r else r)
          else
            applyFailure reason
                { caseId := c, evidenceId := e, status := .queued } ::
              st.records,
        vectors := st.vectors }

/-- Updating twice with the same success payload is the same as updating
once. -/
theorem applySuccess_idem (p : SuccessPayload) (r : EvidenceRecord) :
    applySuccess p (applySuccess p r) = applySuccess p r := rfl

/-- `applySuccess` leaves the composite key untouched. -/
theorem keyMatches_applySuccess (c e : String) (p : SuccessPayload)
    (r : EvidenceRecord) :
    keyMatches c e (applySuccess p r) = keyMatches c e r := rfl

/-- C4: the Result Writer's commit is idempotent for success payloads —
applying `commit` twice with an identical success payload for the same
(case_id, evidence_id) leaves both stores exactly as applying it once. -/
theorem commit_success_idempotent (st : PipelineStore) (c e : String)
    (p : SuccessPayload) :
    commit (commit st c e (.success p)) c e (.success p) =
      commit st c e (.success p) := by
  have hg : ∀ r : EvidenceRecord,
      (fun r => if keyMatches c e r then applySuccess p r else r)
        ((fun r => if keyMatches c e r then applySuccess p r else r) r) =
      (fun r => if keyMatches c e r then applySuccess p r else r) r := by
    intro r
    by_cases hk : keyMatches c e r
    · simp [hk, keyMatches_applySuccess, applySuccess_idem]
    · simp [hk]
  have hvec : ∀ vs : List VectorDoc,
      (vectorDocOf c e p ::
          vs.filter (fun v => ¬(v.caseId = c ∧ v.evidenceId = e))).filter
        (fun v => ¬(v.caseId = c ∧ v.evidenceId = e)) =
      vs.filter (fun v => ¬(v.caseId = c ∧ v.evidenceId = e)) := by
    intro vs
    rw [List.filter_cons]
    have hv : (fun v : VectorDoc =>
        decide ¬(v.caseId = c ∧ v.evidenceId = e)) (vectorDocOf c e p) = false := by
      simp [vectorDocOf]
    simp only [hv, if_false, List.filter_filter]
    apply List.filter_congr
    intro v _
    simp
  by_cases h : st.records.any (keyMatches c e) = true
  · have hany : (st.records.map (fun r =>
        if keyMatches c e r then applySuccess p r else r)).any
          (keyMatches c e) = true := by
      rw [List.any_eq_true] at h ⊢
      obtain ⟨r, hr, hPr⟩ := h
      exact ⟨(fun r => if keyMatches c e r then applySuccess p r else r) r,
        List.mem_map_of_mem _ hr, by simp [hPr, keyMatches_applySuccess]⟩
    simp only [commit, h, if_true, hany]
    refine congrArg₂ PipelineStore.mk ?_
      (congrArg (vectorDocOf c e p :: ·) (hvec st.vectors))
    rw [List.map_map]
    exact List.map_congr_left (fun r _ => hg r)
  · have h0 : st.records.any (keyMatches c e) = false := by
      simpa using h
    have hfresh : keyMatches c e (freshFromPayload c e p) = true := by
      simp [freshFromPayload, applySuccess, keyMatches]
    have hany : ((freshFromPayload c e p :: st.records).any
        (keyMatches c e)) = true := by
      simp [List.any_cons, hfresh]
    have hid : st.records.map (fun r =>
        if keyMatches c e r then applySuccess p r else r) = st.records := by
      rw [List.any_eq_false] at h0
      have hfix : ∀ r ∈ st.records,
          (if keyMatches c e r then applySuccess p r else r) = r := by
        intro r hr
        simp [h0 r hr]
      rw [List.map_congr_left hfix]
      simp
    simp only [commit, h0, Bool.false_eq_true, if_false, hany, if_true,
      List.map_cons, hid, hfresh]
    refine congrArg₂ PipelineStore.mk ?_
      (congrArg (vectorDocOf c e p :: ·) (hvec st.vectors))
    simp [freshFromPayload, applySuccess_idem]

/-! ## Authentication (JWT) -/

/-- User role carried in the JWT (BACKEND_DESIGN §3.1:
`lawyer | staff | admin`). -/
inductive UserRole where
| lawyer
| staff
| admin
deriving DecidableEq, Repr

/-- Modelled from the spec: the decoded bearer-token claims
`\x7bsub, role, exp, case_access\x7d` of BACKEND_DESIGN §3.1. -/
structure JwtClaims where
  sub : String
  role : UserRole
  exp : Nat
  caseAccess : List String
deriving DecidableEq, Repr

/-- Access-token time to live: 24 hours, in seconds. -/
def accessTokenTtl : Nat := 24 * 60 * 60

/-- A user account as the token issuer sees it. -/
structure UserAccount where
  id : String
  role : UserRole
  caseAccess : List String
deriving DecidableEq, Repr

/-- Modelled from the spec: access-token issuance — the token carries the
user id (`sub`), the role, the case-access list, and expires
`accessTokenTtl` seconds after issuance. -/
def issueAccessToken (u : UserAccount) (now : Nat) : JwtClaims :=
  { sub := u.id, role := u.role, exp := now + accessTokenTtl,
    caseAccess := u.caseAccess }

/-- Modelled from the spec: the JWT middleware — a missing token or an
expired token is a 401-class error, otherwise the decoded claims become the
request's user context. -/
def authenticate (token : Option JwtClaims) (now : Nat) :
    Except ApiError JwtClaims :=
  match token with
  | none => .error .auth
  | some t => if now < t.exp then .ok t else .error .auth

/-- A backend endpoint together with its request data (spec §6). -/
inductive Endpoint where
| presign (caseId filename : String)
| evidenceList (caseId : String) (filters : EvidenceFilters)
| draftPreview (caseId : String) (sections : List String)
deriving DecidableEq, Repr

/-- A successful backend response. -/
inductive ApiOk where
| upload (grant : UploadGrant)
| evidence (items : List EvidenceRecord)
| draft (preview : DraftPreview)
deriving DecidableEq, Repr

/-- Modelled from the spec: backend request handling — every endpoint runs
the JWT middleware first and only then dispatches to its service with the
token's user context. -/
def handleRequest (st : BackendState) (ep : Endpoint)
    (token : Option JwtClaims) (now : Nat) (llmUp : Bool) :
    Except ApiError ApiOk :=
  match authenticate token now with
  | .error err => .error err
  | .ok t =>
    match ep with
    | .presign caseId filename =>
        (requestUpload st t.sub caseId filename now).map (fun g => .upload g.1)
    | .evidenceList caseId filters =>
        (listEvidence st t.sub caseId filters).map .evidence
    | .draftPreview caseId sections =>
        (generateDraft st t.sub caseId sections llmUp).map .draft

/-- C7: every issued access token carries the user id, role and case-access
list and expires exactly 24 hours (86400 s) after issuance, and every
backend endpoint rejects a missing token and an expired token with the
401-class error. -/
theorem bearer_token_contract (u : UserAccount) (issuedAt : Nat)
    (st : BackendState) (ep : Endpoint) (t : JwtClaims) (now : Nat)
    (llmUp : Bool) (hexp : t.exp ≤ now) :
    (issueAccessToken u issuedAt).sub = u.id ∧
      (issueAccessToken u issuedAt).role = u.role ∧
      (issueAccessToken u issuedAt).caseAccess = u.caseAccess ∧
      (issueAccessToken u issuedAt).exp = issuedAt + 24 * 60 * 60 ∧
      handleRequest st ep none now llmUp = .error .auth ∧
      handleRequest st ep (some t) now llmUp = .error .auth := by
  refine ⟨rfl, rfl, rfl, rfl, rfl, ?_⟩
  have hlt : ¬ now < t.exp := by omega
  simp [handleRequest, authenticate, hlt]

/-- Witness for C7 with a token that expired at time 10, presented at
time 10. -/
theorem bearer_token_contract_witness :
    (10 : Nat) ≤ 10 ∧
      ((issueAccessToken
            { id := "u1", role := .lawyer, caseAccess := ["c1"] } 0).sub = "u1" ∧
        (issueAccessToken
            { id := "u1", role := .lawyer, caseAccess := ["c1"] } 0).role = .lawyer ∧
        (issueAccessToken
            { id := "u1", role := .lawyer, caseAccess := ["c1"] } 0).caseAccess = ["c1"] ∧
        (issueAccessToken
            { id := "u1", role := .lawyer, caseAccess := ["c1"] } 0).exp = 0 + 24 * 60 * 60 ∧
        handleRequest { cases := [] } (.evidenceList "c1" {}) none 10 true =
          .error .auth ∧
        handleRequest { cases := [] } (.evidenceList "c1" {})
            (some { sub := "u1", role := .lawyer, exp := 10, caseAccess := ["c1"] })
            10 true = .error .auth) :=
  ⟨by decide,
    bearer_token_contract { id := "u1", role := .lawyer, caseAccess := ["c1"] } 0
      { cases := [] } (.evidenceList "c1" {})
      { sub := "u1", role := .lawyer, exp := 10, caseAccess := ["c1"] }
      10 true (by decide)⟩

/-! ## Portal path helpers (`src/frontend/src/lib/portalPaths.ts`) -/

/-- `type PortalRole = 'lawyer' | 'client' | 'detective'`. -/
inductive PortalRole where
| lawyer
| client
| detective
deriving DecidableEq, Repr

/-- The string a `PortalRole` interpolates to. -/
def PortalRole.toStr : PortalRole → String
| .lawyer => "lawyer"
| .client => "client"
| .detective => "detective"

/-- `type CaseSection = 'detail' | 'procedure' | 'assets' | 'relations' |
'relationship'`. -/
inductive CaseSection where
| detail
| procedure
| assets
| relations
| relationship
deriving DecidableEq, Repr

/-- The string a `CaseSection` interpolates to. -/
def CaseSection.toStr : CaseSection → String
| .detail => "detail"
| .procedure => "procedure"
| .assets => "assets"
| .relations => "relations"
| .relationship => "relationship"

/-- `CasePathOptions`: string keys to possibly-undefined string values,
in insertion order (as `Object.entries` iterates them). -/
def CasePathOptions := List (String × Option String)

/-- Characters `encodeURIComponent` leaves as-is: ASCII letters, digits,
and `- _ . ! ~ * ' ( )`. -/
def isUnreservedChar (c : Char) : Bool :=
  c.isAlpha || c.isDigit || c = '-' || c = '_' || c = '.' || c = '!' ||
    c = '~' || c = '*' || c = Char.ofNat 39 || c = '(' || c = ')'

/-- Uppercase hexadecimal digit of a value below 16. -/
def hexDigit (n : Nat) : Char :=
  if n < 10 then Char.ofNat (48 + n) else Char.ofNat (55 + n)

/-- UTF-8 bytes of a code point. -/
def utf8Bytes (n : Nat) : List Nat :=
  if n < 128 then [n]
  else if n < 2048 then [192 + n / 64, 128 + n % 64]
  else if n < 65536 then
    [224 + n / 4096, 128 + (n / 64) % 64, 128 + n % 64]
  else
    [240 + n / 262144, 128 + (n / 4096) % 64, 128 + (n / 64) % 64,
      128 + n % 64]

/-- `%XX` percent-encoding of one byte. -/
def percentEncodeByte (b : Nat) : List Char :=
  [Char.ofNat 37, hexDigit (b / 16), hexDigit (b % 16)]

/-- JavaScript's `encodeURIComponent`: unreserved characters pass through,
every other character is percent-encoded byte-by-byte in UTF-8. -/
def encodeURIComponent (s : String) : String :=
  String.mk (s.data.flatMap (fun c =>
    if isUnreservedChar c then [c]
    else (utf8Bytes c.toNat).flatMap percentEncodeByte))

/-- The rendered `key=value` query fragment of one defined option. -/
def renderOption (kv : String × String) : String :=
  encodeURIComponent kv.1 ++ "=" ++ encodeURIComponent kv.2

/-- `buildCasePath` from `portalPaths.ts`: rejects an invalid `caseId`
(empty, `'undefined'`, `'null'`) with the cases-list path; otherwise builds
`/\x7brole\x7d/cases/\x7bcaseId\x7d`, appends `/\x7bsection\x7d` unless the
section is `detail`, appends the trailing slash, and appends
`?k=v&...` for the options whose values are defined. -/
def buildCasePath (role : PortalRole) (sect : CaseSection) (caseId : String)
    (options : CasePathOptions) : String :=
  if caseId = "" ∨ caseId = "undefined" ∨ caseId = "null" then
    "/" ++ role.toStr ++ "/cases/"
  else
    let path := "/" ++ role.toStr ++ "/cases/" ++ caseId
    let path := if sect ≠ CaseSection.detail then path ++ "/" ++ sect.toStr
      else path
    let path := path ++ "/"
    let queryParams := String.intercalate "&"
      ((options.filter (fun kv => kv.2.isSome)).map
        (fun kv => encodeURIComponent kv.1 ++ "=" ++
          encodeURIComponent (kv.2.getD "")))
    if queryParams ≠ "" then path ++ "?" ++ queryParams else path

/-- `getCaseDetailPath` from `portalPaths.ts`. -/
def getCaseDetailPath (role : PortalRole) (caseId : String)
    (options : CasePathOptions) : String :=
  buildCasePath role .detail caseId options

/-- `getLawyerCasePath` from `portalPaths.ts`. -/
def getLawyerCasePath (sect : CaseSection) (caseId : String)
    (options : CasePathOptions) : String :=
  buildCasePath .lawyer sect caseId options

/-- The options whose values are defined, in order. -/
def definedOptions (options : CasePathOptions) : List (String × String) :=
  options.filterMap (fun kv => kv.2.map (fun v => (kv.1, v)))

/-- The query string as the claim describes it: empty when no option value
is defined, otherwise `?` followed by the `&`-joined URL-encoded pairs. -/
def queryStringOf (options : CasePathOptions) : String :=
  match definedOptions options with
  | [] => ""
  | ps => "?" ++ String.intercalate "&" (ps.map renderOption)

/-- `buildCasePath` as the claim states it: the list path
`/\x7brole\x7d/cases/` on an invalid caseId, otherwise
`/\x7brole\x7d/cases/\x7bcaseId\x7d/` with `/\x7bsection\x7d` inserted
before the trailing slash exactly when the section is not `detail`,
followed by the query string of the defined options. -/
def buildCasePathStated (role : PortalRole) (sect : CaseSection)
    (caseId : String) (options : CasePathOptions) : String :=
  if caseId = "" ∨ caseId = "undefined" ∨ caseId = "null" then
    "/" ++ role.toStr ++ "/cases/"
  else
    "/" ++ role.toStr ++ "/cases/" ++ caseId ++
      (if sect = CaseSection.detail then "" else "/" ++ sect.toStr) ++ "/" ++
      queryStringOf options

/-- The rendered option lists of source (`filter isSome`, `getD`) and spec
(`definedOptions`) coincide. -/
theorem renderedOptions_eq (options : CasePathOptions) :
    (options.filter (fun kv => kv.2.isSome)).map
        (fun kv => encodeURIComponent kv.1 ++ "=" ++
          encodeURIComponent (kv.2.getD "")) =
      (definedOptions options).map renderOption := by
  induction options with
  | nil => rfl
  | cons kv rest ih =>
    obtain ⟨k, v⟩ := kv
    cases v with
    | none => simpa [definedOptions, List.filterMap_cons] using ih
    | some s =>
      simpa [definedOptions, List.filterMap_cons, renderOption] using ih

/-- `String.intercalate.go` never shrinks its accumulator. -/
theorem intercalate_go_length (sep : String) (as : List String)
    (acc : String) :
    acc.length ≤ (String.intercalate.go acc sep as).length := by
  induction as generalizing acc with
  | nil => simp [String.intercalate.go]
  | cons a as ih =>
    calc acc.length ≤ (acc ++ sep ++ a).length := by
          simp [String.length_append]
          omega
      _ ≤ _ := ih (acc ++ sep ++ a)

/-- Joining at least one rendered option yields a non-empty string (every
rendered pair contains the `=` sign). -/
theorem intercalate_render_ne_empty (p : String × String)
    (ps : List (String × String)) :
    String.intercalate "&" ((p :: ps).map renderOption) ≠ "" := by
  intro hcontra
  have hlen : (String.intercalate "&" ((p :: ps).map renderOption)).length =
      0 := by
    rw [hcontra]
    rfl
  have hge : (renderOption p).length ≤
      (String.intercalate "&" ((p :: ps).map renderOption)).length := by
    simpa [String.intercalate, List.map_cons] using
      intercalate_go_length "&" (ps.map renderOption) (renderOption p)
  have h1 : ("=" : String).length = 1 := rfl
  have hpos : 0 < (renderOption p).length := by
    simp only [renderOption, String.length_append, h1]
    omega
  omega

/-- Equivalence of the source `buildCasePath` with its stated form. -/
theorem buildCasePath_eq_stated (role : PortalRole) (sect : CaseSection)
    (caseId : String) (options : CasePathOptions) :
    buildCasePath role sect caseId options =
      buildCasePathStated role sect caseId options := by
  unfold buildCasePath buildCasePathStated
  by_cases hid : caseId = "" ∨ caseId = "undefined" ∨ caseId = "null"
  · rw [if_pos hid, if_pos hid]
  · rw [if_neg hid, if_neg hid]
    rw [renderedOptions_eq]
    have hq : ∀ s : String, ("/?" : String) ++ s = "/" ++ ("?" ++ s) := by
      intro s
      rw [← String.append_assoc]
      exact congrArg (· ++ s) (by decide)
    by_cases hs : sect = CaseSection.detail
    · rcases hdef : definedOptions options with _ | ⟨p, ps⟩
      · simp [queryStringOf, hdef, String.intercalate, hs, String.append_assoc]
      · have hne := intercalate_render_ne_empty p ps
        have hne' : "&".intercalate
            (renderOption p :: List.map renderOption ps) ≠ "" := by
          simpa using hne
        simp [queryStringOf, hdef, hne', hq, hs, String.append_assoc]
    · rcases hdef : definedOptions options with _ | ⟨p, ps⟩
      · simp [queryStringOf, hdef, String.intercalate, hs, String.append_assoc]
      · have hne := intercalate_render_ne_empty p ps
        have hne' : "&".intercalate
            (renderOption p :: List.map renderOption ps) ≠ "" := by
          simpa using hne
        simp [queryStringOf, hdef, hne', hq, hs, String.append_assoc]

/-- C8: `buildCasePath` (and hence `getCaseDetailPath` and
`getLawyerCasePath`) returns the cases-list path `/\x7brole\x7d/cases/` on
an empty, `'undefined'` or `'null'` caseId, and otherwise
`/\x7brole\x7d/cases/\x7bcaseId\x7d/` with `/\x7bsection\x7d` inserted
before the trailing slash exactly when the section is not `detail`,
followed by a query string of exactly the defined options, URL-encoded. -/
theorem portal_paths_follow_stated_form (role : PortalRole)
    (sect : CaseSection) (caseId : String) (options : CasePathOptions) :
    buildCasePath role sect caseId options =
        buildCasePathStated role sect caseId options ∧
      getCaseDetailPath role caseId options =
        buildCasePathStated role .detail caseId options ∧
      getLawyerCasePath sect caseId options =
        buildCasePathStated .lawyer sect caseId options :=
  ⟨buildCasePath_eq_stated role sect caseId options,
    buildCasePath_eq_stated role .detail caseId options,
    buildCasePath_eq_stated .lawyer sect caseId options⟩

end LEH
